import Mathlib

/-!
Verification of the region split client of the `br` backup/restore tool
(`pkg/restore/split_client.go`).  The Go code is shallowly embedded:

* protobuf messages (`metapb.Peer`, `metapb.Region`, `errorpb.Error`,
  `kvrpcpb.SplitRegionResponse`, ...) become Lean structures; nilable
  pointer fields become `Option`;
* the pd client / grpc transport is an explicit environment of pure
  functions (`SplitEnv`, `SingleEnv`): each call site in the Go code
  becomes a lookup in the environment, returning `Except` for fallible
  calls;
* the retry loop of `sendSplitRegionRequest` becomes structural
  recursion on the remaining attempt budget, threading the working
  `RegionInfo`, the accumulated `multierr` list, and an event trace
  recording which peer each attempt addressed and every locator
  (`GetRegionByID`) query.
-/

/-- Raw, unencoded key bytes. -/
abbrev Key := List Nat

/-- Opaque transport / metadata-service error (`error` values coming from
grpc, the pd client, ...). -/
abbrev TErr := Nat

/-- Embedding of `metapb.Peer`: replica identifier and its store. -/
structure Peer where
  id : Nat
  storeId : Nat
deriving DecidableEq, Repr

/-- Embedding of `metapb.Region`.  The region epoch pair
(`RegionEpoch.ConfVer`, `RegionEpoch.Version`) is inlined with Go getter
semantics (absent message reads as zeroes). -/
structure Region where
  id : Nat
  startKey : Key
  endKey : Key
  confVer : Nat
  version : Nat
  peers : List Peer
deriving DecidableEq, Repr

/-- Embedding of `restore.RegionInfo`: a region plus the believed current
leader peer (nilable). -/
structure RegionInfo where
  region : Region
  leader : Option Peer
deriving DecidableEq, Repr

/-- Embedding of `errorpb.NotLeader`: the region and, optionally, the new
leader hint. -/
structure NotLeader where
  regionId : Nat
  leader : Option Peer
deriving DecidableEq, Repr

/-- Embedding of `errorpb.Error` restricted to the variants the split
client inspects (`NotLeader`, `ServerIsBusy`, `StaleCommand`) plus the
variants the spec names as non-retryable; presence of a sub-message is a
`Bool` when the client never reads its payload. -/
structure RegionError where
  notLeader : Option NotLeader
  serverIsBusy : Bool
  staleCommand : Bool
  regionNotFound : Bool
  epochNotMatch : Bool
  keyNotInRegion : Bool
deriving DecidableEq, Repr

/-- Embedding of `kvrpcpb.SplitRegionResponse`: optional region error, the
deprecated `Left` field and the flat list of resulting regions. -/
structure SplitRegionResponse where
  regionError : Option RegionError
  left : Option Region
  regions : List Region
deriving DecidableEq, Repr

/-- Embedding of `metapb.Store`: identifier and network address. -/
structure Store where
  id : Nat
  address : String
deriving DecidableEq, Repr

/-- The `multierr` components accumulated by `sendSplitRegionRequest`
(`splitErrors` in the Go code).  `splitFailed re` embeds
`ErrRestoreSplitFailed` annotated with the region error; `epochNotMatch`
embeds `berrors.ErrKVEpochNotMatch`; `noPeer` embeds
`berrors.ErrRestoreNoPeer`. -/
inductive SplitErr where
  | noPeer (regionId : Nat)
  | storeErr (e : TErr)
  | dialErr (e : TErr)
  | rpcErr (e : TErr)
  | splitFailed (re : RegionError)
  | locErr (e : TErr)
  | epochNotMatch
deriving DecidableEq, Repr

/-- Observable events of a `sendSplitRegionRequest` run: each RPC attempt
(with the working `RegionInfo` and the peer it addressed) and each
`GetRegionByID` locator query. -/
inductive Event where
  | attempt (info : RegionInfo) (peer : Peer)
  | locator (regionId : Nat)
deriving DecidableEq, Repr

/-- Number of RPC attempts recorded in a trace. -/
def countAttempts (evs : List Event) : Nat :=
  evs.countP (fun e => match e with | .attempt _ _ => true | .locator _ => false)

/-- Environment of `sendSplitRegionRequest`: the store resolution
(`c.GetStore`), the grpc dial, the split RPC itself (indexed by the
attempt number, since each attempt reaches the outside world anew) and
the locator lookup `c.GetRegionByID` (which returns nil when the region
is unknown). -/
structure SplitEnv where
  getStore : Nat → Except TErr Store
  dial : String → Except TErr Unit
  rpc : Nat → RegionInfo → Peer → List Key → Except TErr SplitRegionResponse
  getRegionByID : Nat → Except TErr (Option RegionInfo)

/-- Embedding of `splitRegionMaxRetryTime`. -/
def splitRegionMaxRetryTime : Nat := 4

/-- Peer selection of `sendSplitRegionRequest` (split_client.go:251-262):
prefer the leader when present with a non-zero identifier, otherwise the
first peer; `none` when the region has no peers either. -/
def splitPeer (info : RegionInfo) : Option Peer :=
  match info.leader with
  | some l => if l.id ≠ 0 then some l else info.region.peers.head?
  | none => info.region.peers.head?

/-- Modelled from the spec: `checkRegionEpoch` (split_client.go:296) is
referenced by `sendSplitRegionRequest` but defined outside the provided
sources.  Per the spec, after a leader re-resolution the retry is allowed
only when the re-resolved region's epoch dominates-or-equals the working
region's: both components of the (conf-version, version) pair are ≥. -/
def checkRegionEpoch (newInfo oldInfo : RegionInfo) : Bool :=
  oldInfo.region.confVer ≤ newInfo.region.confVer &&
  oldInfo.region.version ≤ newInfo.region.version

/-- One embedding of the retry loop body of `sendSplitRegionRequest`
(split_client.go:246-327).  `fuel` is the remaining attempt budget
(`splitRegionMaxRetryTime - i`), `i` the attempt index, `errs` the
accumulated `splitErrors`, `evs` the event trace. -/
def sendSplitIter (env : SplitEnv) (keys : List Key) :
    Nat → Nat → RegionInfo → List SplitErr → List Event →
    Except (List SplitErr) SplitRegionResponse × List Event
  | 0, _, _, errs, evs => (.error errs, evs)
  | fuel + 1, i, info, errs, evs =>
    match splitPeer info with
    | none => (.error (errs ++ [.noPeer info.region.id]), evs)
    | some peer =>
      match env.getStore peer.storeId with
      | .error e => (.error (errs ++ [.storeErr e]), evs)
      | .ok store =>
        match env.dial store.address with
        | .error e => (.error (errs ++ [.dialErr e]), evs)
        | .ok _ =>
          match env.rpc i info peer keys with
          | .error e => (.error (errs ++ [.rpcErr e]), evs ++ [.attempt info peer])
          | .ok resp =>
            match resp.regionError with
            | none => (.ok resp, evs ++ [.attempt info peer])
            | some re =>
              match re.notLeader with
              | some nl =>
                match nl.leader with
                | some l =>
                  sendSplitIter env keys fuel (i + 1) { info with leader := some l }
                    (errs ++ [.splitFailed re]) (evs ++ [.attempt info peer])
                | none =>
                  match env.getRegionByID nl.regionId with
                  | .error e =>
                    (.error (errs ++ [.splitFailed re, .locErr e]),
                     evs ++ [.attempt info peer, .locator nl.regionId])
                  | .ok none =>
                    (.error (errs ++ [.splitFailed re, .epochNotMatch]),
                     evs ++ [.attempt info peer, .locator nl.regionId])
                  | .ok (some newInfo) =>
                    if checkRegionEpoch newInfo info then
                      sendSplitIter env keys fuel (i + 1) newInfo
                        (errs ++ [.splitFailed re])
                        (evs ++ [.attempt info peer, .locator nl.regionId])
                    else
                      (.error (errs ++ [.splitFailed re, .epochNotMatch]),
                       evs ++ [.attempt info peer, .locator nl.regionId])
              | none =>
                if re.serverIsBusy || re.staleCommand then
                  sendSplitIter env keys fuel (i + 1) info
                    (errs ++ [.splitFailed re]) (evs ++ [.attempt info peer])
                else
                  (.error (errs ++ [.splitFailed re]), evs ++ [.attempt info peer])

/-- Embedding of `(*pdClient).sendSplitRegionRequest`
(split_client.go:246-327): run the loop with the full retry budget,
empty error accumulator and empty trace. -/
def sendSplitRegionRequest (env : SplitEnv) (info : RegionInfo) (keys : List Key) :
    Except (List SplitErr) SplitRegionResponse × List Event :=
  sendSplitIter env keys splitRegionMaxRetryTime 0 info [] []

/-- Leader recomputation applied to each region produced by a split
(split_client.go:341-351 and 191-200): among the region's peers, the
first one on the same store as the pre-split leader; `none` when there is
no pre-split leader or no such peer. -/
def regionLeader (info : RegionInfo) (region : Region) : Option Peer :=
  match info.leader with
  | some ldr => region.peers.find? (fun p => p.storeId == ldr.storeId)
  | none => none

/-- The partitioning loop of `BatchSplitRegionsWithOrigin`
(split_client.go:340-364): regions whose identifier equals the pre-split
region's become the origin (the Go loop overwrites, so the last match
wins), everything else is appended to the new-regions list. -/
def partitionRegionsGo (info : RegionInfo) :
    Option RegionInfo → List RegionInfo → List Region →
    Option RegionInfo × List RegionInfo
  | origin, acc, [] => (origin, acc)
  | origin, acc, r :: rest =>
    let leader := regionLeader info r
    if r.id = info.region.id then
      partitionRegionsGo info (some ⟨r, leader⟩) acc rest
    else
      partitionRegionsGo info origin (acc ++ [⟨r, leader⟩]) rest

/-- Embedding of `(*pdClient).BatchSplitRegionsWithOrigin`
(split_client.go:329-366). -/
def BatchSplitRegionsWithOrigin (env : SplitEnv) (info : RegionInfo) (keys : List Key) :
    Except (List SplitErr) (Option RegionInfo × List RegionInfo) × List Event :=
  match sendSplitRegionRequest env info keys with
  | (.error e, evs) => (.error e, evs)
  | (.ok resp, evs) => (.ok (partitionRegionsGo info none [] resp.regions), evs)

/-- Embedding of `(*pdClient).BatchSplitRegions` (split_client.go:368-373):
delegate to `BatchSplitRegionsWithOrigin` and discard the origin. -/
def BatchSplitRegions (env : SplitEnv) (info : RegionInfo) (keys : List Key) :
    Except (List SplitErr) (List RegionInfo) × List Event :=
  match BatchSplitRegionsWithOrigin env info keys with
  | (res, evs) => (res.map (fun p => p.2), evs)

/-- Environment of the legacy single-key `SplitRegion`: store resolution,
dial, and a single split RPC taking the addressed peer and one key. -/
structure SingleEnv where
  getStore : Nat → Except TErr Store
  dial : String → Except TErr Unit
  rpc : RegionInfo → Peer → Key → Except TErr SplitRegionResponse

/-- Errors of the legacy single-key `SplitRegion`. -/
inductive SingleErr where
  | noPeer
  | storeErr (e : TErr)
  | dialErr (e : TErr)
  | rpcErr (e : TErr)
  | splitFailed (re : RegionError)
  | newRegionNil
deriving DecidableEq, Repr

/-- Peer selection of the legacy `SplitRegion` (split_client.go:136-144):
the leader whenever present (no zero-identifier check), otherwise the
first peer. -/
def splitRegionPeer (info : RegionInfo) : Option Peer :=
  match info.leader with
  | some l => some l
  | none => info.region.peers.head?

/-- Embedding of `(*pdClient).SplitRegion` (split_client.go:135-205): a
single attempt; on success the returned region is `resp.GetLeft()` when
present, otherwise the first listed region whose start key equals the
pre-split region's; its leader is recomputed by store as in
`regionLeader`. -/
def SplitRegion (env : SingleEnv) (info : RegionInfo) (key : Key) :
    Except SingleErr RegionInfo :=
  match splitRegionPeer info with
  | none => .error .noPeer
  | some peer =>
    match env.getStore peer.storeId with
    | .error e => .error (.storeErr e)
    | .ok store =>
      match env.dial store.address with
      | .error e => .error (.dialErr e)
      | .ok _ =>
        match env.rpc info peer key with
        | .error e => .error (.rpcErr e)
        | .ok resp =>
          match resp.regionError with
          | some re => .error (.splitFailed re)
          | none =>
            match
              (match resp.left with
               | some l => some l
               | none =>
                 resp.regions.find?
                   (fun r => r.startKey == info.region.startKey)) with
            | none => .error .newRegionNil
            | some newRegion => .ok ⟨newRegion, regionLeader info newRegion⟩

/-- State of the `pdClient` store cache (`storeCache` map, keyed by store
identifier); modelled as an association list where the most recent
insertion shadows older ones. -/
structure PDClientState where
  storeCache : List (Nat × Store)
deriving DecidableEq, Repr

/-- Map lookup in the store cache. -/
def cacheLookup : List (Nat × Store) → Nat → Option Store
  | [], _ => none
  | (k, s) :: rest, id => if k = id then some s else cacheLookup rest id

/-- Embedding of `(*pdClient).GetStore` (split_client.go:92-105): consult
the cache; on a miss, fetch from the underlying pd client and cache the
result.  The third component counts underlying fetches (0 or 1). -/
def pdGetStore (fetch : Nat → Except TErr Store) (st : PDClientState) (storeID : Nat) :
    Except TErr Store × PDClientState × Nat :=
  match cacheLookup st.storeCache storeID with
  | some s => (.ok s, st, 0)
  | none =>
    match fetch storeID with
    | .error e => (.error e, st, 1)
    | .ok s => (.ok s, ⟨(storeID, s) :: st.storeCache⟩, 1)

/-- A sequence of further `GetStore` calls (each with its own view of the
underlying pd client), folded over the cache state. -/
def runGetStores (ops : List ((Nat → Except TErr Store) × Nat)) (st : PDClientState) :
    PDClientState :=
  ops.foldl (fun s op => (pdGetStore op.1 s op.2).2.1) st

/-- A region error that the retry loop always retries regardless of the
environment: a busy/stale error without a not-leader component, or a
not-leader error carrying a leader hint with a non-zero identifier. -/
def alwaysRetryable (re : RegionError) : Bool :=
  match re.notLeader with
  | none => re.serverIsBusy || re.staleCommand
  | some nl =>
    match nl.leader with
    | some l => l.id != 0
    | none => false

def busyError : RegionError := ⟨none, true, false, false, false, false⟩

def envC1 : SplitEnv :=
  ⟨fun id => .ok ⟨id, "store"⟩, fun _ => .ok (),
   fun _ _ _ _ => .ok ⟨some busyError, none, []⟩, fun _ => .ok none⟩

def infoC1 : RegionInfo := ⟨⟨1, [], [9], 1, 1, [⟨5, 50⟩]⟩, none⟩

def notFoundError : RegionError := ⟨none, false, false, true, false, false⟩

def envC5 : SplitEnv :=
  ⟨fun id => .ok ⟨id, "store"⟩, fun _ => .ok (),
   fun _ _ _ _ => .ok ⟨some notFoundError, none, []⟩, fun _ => .ok none⟩

def infoC5 : RegionInfo := ⟨⟨1, [], [9], 1, 1, [⟨5, 50⟩]⟩, none⟩

def staleError : RegionError := ⟨none, false, true, false, false, false⟩

def envC6 : SplitEnv :=
  ⟨fun id => .ok ⟨id, "store"⟩, fun _ => .ok (),
   fun _ _ _ _ => .ok ⟨some staleError, none, []⟩, fun _ => .ok none⟩

def infoC6 : RegionInfo := ⟨⟨1, [], [9], 1, 1, [⟨5, 50⟩]⟩, some ⟨2, 20⟩⟩

def noHintError : RegionError := ⟨some ⟨1, none⟩, false, false, false, false, false⟩

def regionC4 : Region := ⟨1, [], [9], 1, 1, [⟨5, 50⟩]⟩

def newInfoC4 : RegionInfo := ⟨⟨1, [], [9], 2, 3, [⟨5, 50⟩]⟩, some ⟨6, 60⟩⟩

def envC4 : SplitEnv :=
  ⟨fun id => .ok ⟨id, "store"⟩, fun _ => .ok (),
   fun _ _ _ _ => .ok ⟨some noHintError, none, []⟩, fun _ => .ok (some newInfoC4)⟩

def infoC4 : RegionInfo := ⟨regionC4, some ⟨2, 20⟩⟩

def regionC3 : Region := ⟨1, [], [9], 1, 1, [⟨5, 50⟩]⟩

def infoC3 : RegionInfo := ⟨regionC3, some ⟨2, 20⟩⟩

def hintErrC3 : RegionError := ⟨some ⟨1, some ⟨0, 70⟩⟩, false, false, false, false, false⟩

def envC3 : SplitEnv :=
  ⟨fun id => .ok ⟨id, "store"⟩, fun _ => .ok (),
   fun i _ _ _ =>
     if i = 0 then .ok ⟨some hintErrC3, none, []⟩ else .ok ⟨none, none, [regionC3]⟩,
   fun _ => .ok none⟩

def envC3w : SplitEnv :=
  ⟨fun id => .ok ⟨id, "store"⟩, fun _ => .ok (),
   fun i _ _ _ =>
     if i = 0 then .ok ⟨some ⟨some ⟨1, some ⟨7, 70⟩⟩, false, false, false, false, false⟩, none, []⟩
     else .ok ⟨none, none, [regionC3]⟩,
   fun _ => .ok none⟩

def infoC7 : RegionInfo := ⟨⟨1, [], [9], 1, 1, [⟨5, 50⟩]⟩, some ⟨0, 70⟩⟩

def envC7 : SingleEnv :=
  ⟨fun id => .ok ⟨id, "store"⟩, fun _ => .ok (),
   fun _ peer _ => .ok ⟨none, some ⟨peer.storeId, [], [], 1, 1, []⟩, []⟩⟩

def infoC7w : RegionInfo := ⟨⟨1, [], [9], 1, 1, []⟩, none⟩

def envC7w : SplitEnv :=
  ⟨fun id => .ok ⟨id, "store"⟩, fun _ => .ok (),
   fun _ _ _ _ => .ok ⟨none, none, []⟩, fun _ => .ok none⟩

def infoC2 : RegionInfo := ⟨⟨1, [], [9], 1, 1, [⟨5, 50⟩]⟩, none⟩

def leftC2 : Region := ⟨999, [], [9], 1, 1, []⟩

def matchC2 : Region := ⟨1, [], [9], 1, 1, []⟩

def envC2cex : SingleEnv :=
  ⟨fun id => .ok ⟨id, "store"⟩, fun _ => .ok (),
   fun _ _ _ => .ok ⟨none, some leftC2, [matchC2]⟩⟩

def infoW2 : RegionInfo := ⟨⟨1, [], [9], 1, 1, [⟨5, 50⟩]⟩, none⟩

def newW2 : Region := ⟨2, [], [5], 1, 1, []⟩

def originW2 : Region := ⟨1, [5], [9], 1, 1, []⟩

def respW2 : SplitRegionResponse := ⟨none, none, [newW2, originW2]⟩

def envW2 : SplitEnv :=
  ⟨fun id => .ok ⟨id, "store"⟩, fun _ => .ok (),
   fun _ _ _ _ => .ok respW2, fun _ => .ok none⟩

def infoW8 : RegionInfo := ⟨⟨1, [], [9], 1, 1, [⟨5, 50⟩]⟩, some ⟨5, 50⟩⟩

def regionW8 : Region := ⟨2, [], [5], 1, 1, [⟨7, 50⟩, ⟨8, 60⟩]⟩

def fetchW9 : Nat → Except TErr Store := fun i => .ok ⟨i, "addr"⟩

theorem step_busy (env : SplitEnv) (keys : List Key) (n i : Nat) (info : RegionInfo)
    (errs : List SplitErr) (evs : List Event) (peer : Peer) (store : Store)
    (resp : SplitRegionResponse) (re : RegionError)
    (hsel : splitPeer info = some peer)
    (hstore : env.getStore peer.storeId = .ok store)
    (hdial : env.dial store.address = .ok ())
    (hrpc : env.rpc i info peer keys = .ok resp)
    (hre : resp.regionError = some re)
    (hnl : re.notLeader = none)
    (hbs : re.serverIsBusy = true ∨ re.staleCommand = true) :
    sendSplitIter env keys (n + 1) i info errs evs =
      sendSplitIter env keys n (i + 1) info (errs ++ [.splitFailed re])
        (evs ++ [.attempt info peer]) := by
  simp only [sendSplitIter, hsel, hstore, hdial, hrpc, hre, hnl]
  rcases hbs with h | h <;> simp [h]

theorem step_other (env : SplitEnv) (keys : List Key) (n i : Nat) (info : RegionInfo)
    (errs : List SplitErr) (evs : List Event) (peer : Peer) (store : Store)
    (resp : SplitRegionResponse) (re : RegionError)
    (hsel : splitPeer info = some peer)
    (hstore : env.getStore peer.storeId = .ok store)
    (hdial : env.dial store.address = .ok ())
    (hrpc : env.rpc i info peer keys = .ok resp)
    (hre : resp.regionError = some re)
    (hnl : re.notLeader = none)
    (hbusy : re.serverIsBusy = false)
    (hstale : re.staleCommand = false) :
    sendSplitIter env keys (n + 1) i info errs evs =
      (.error (errs ++ [.splitFailed re]), evs ++ [.attempt info peer]) := by
  simp only [sendSplitIter, hsel, hstore, hdial, hrpc, hre, hnl, hbusy, hstale]
  simp

theorem step_hint (env : SplitEnv) (keys : List Key) (n i : Nat) (info : RegionInfo)
    (errs : List SplitErr) (evs : List Event) (peer : Peer) (store : Store)
    (resp : SplitRegionResponse) (re : RegionError) (nl : NotLeader) (l : Peer)
    (hsel : splitPeer info = some peer)
    (hstore : env.getStore peer.storeId = .ok store)
    (hdial : env.dial store.address = .ok ())
    (hrpc : env.rpc i info peer keys = .ok resp)
    (hre : resp.regionError = some re)
    (hnl : re.notLeader = some nl)
    (hl : nl.leader = some l) :
    sendSplitIter env keys (n + 1) i info errs evs =
      sendSplitIter env keys n (i + 1) { info with leader := some l }
        (errs ++ [.splitFailed re]) (evs ++ [.attempt info peer]) := by
  simp only [sendSplitIter, hsel, hstore, hdial, hrpc, hre, hnl, hl]

theorem step_nohint_dominates (env : SplitEnv) (keys : List Key) (n i : Nat)
    (info newInfo : RegionInfo) (errs : List SplitErr) (evs : List Event)
    (peer : Peer) (store : Store) (resp : SplitRegionResponse) (re : RegionError)
    (nl : NotLeader)
    (hsel : splitPeer info = some peer)
    (hstore : env.getStore peer.storeId = .ok store)
    (hdial : env.dial store.address = .ok ())
    (hrpc : env.rpc i info peer keys = .ok resp)
    (hre : resp.regionError = some re)
    (hnl : re.notLeader = some nl)
    (hl : nl.leader = none)
    (hloc : env.getRegionByID nl.regionId = .ok (some newInfo))
    (hep : checkRegionEpoch newInfo info = true) :
    sendSplitIter env keys (n + 1) i info errs evs =
      sendSplitIter env keys n (i + 1) newInfo (errs ++ [.splitFailed re])
        (evs ++ [.attempt info peer, .locator nl.regionId]) := by
  simp only [sendSplitIter, hsel, hstore, hdial, hrpc, hre, hnl, hl, hloc, hep]
  simp

theorem step_nohint_stale (env : SplitEnv) (keys : List Key) (n i : Nat)
    (info newInfo : RegionInfo) (errs : List SplitErr) (evs : List Event)
    (peer : Peer) (store : Store) (resp : SplitRegionResponse) (re : RegionError)
    (nl : NotLeader)
    (hsel : splitPeer info = some peer)
    (hstore : env.getStore peer.storeId = .ok store)
    (hdial : env.dial store.address = .ok ())
    (hrpc : env.rpc i info peer keys = .ok resp)
    (hre : resp.regionError = some re)
    (hnl : re.notLeader = some nl)
    (hl : nl.leader = none)
    (hloc : env.getRegionByID nl.regionId = .ok (some newInfo))
    (hep : checkRegionEpoch newInfo info = false) :
    sendSplitIter env keys (n + 1) i info errs evs =
      (.error (errs ++ [.splitFailed re, .epochNotMatch]),
       evs ++ [.attempt info peer, .locator nl.regionId]) := by
  simp only [sendSplitIter, hsel, hstore, hdial, hrpc, hre, hnl, hl, hloc, hep]
  simp

theorem step_nopeer (env : SplitEnv) (keys : List Key) (n i : Nat) (info : RegionInfo)
    (errs : List SplitErr) (evs : List Event)
    (hsel : splitPeer info = none) :
    sendSplitIter env keys (n + 1) i info errs evs =
      (.error (errs ++ [.noPeer info.region.id]), evs) := by
  simp only [sendSplitIter, hsel]

theorem sendSplitIter_events_mono (env : SplitEnv) (keys : List Key) :
    ∀ fuel i info errs evs, ∃ tail,
      (sendSplitIter env keys fuel i info errs evs).2 = evs ++ tail := by
  intro fuel
  induction fuel with
  | zero =>
    intro i info errs evs
    exact ⟨[], by simp [sendSplitIter]⟩
  | succ n ih =>
    intro i info errs evs
    rcases hsel : splitPeer info with _ | peer
    · exact ⟨[], by simp [sendSplitIter, hsel]⟩
    rcases hstore : env.getStore peer.storeId with e | store
    · exact ⟨[], by simp [sendSplitIter, hsel, hstore]⟩
    rcases hdial : env.dial store.address with e | u
    · exact ⟨[], by simp [sendSplitIter, hsel, hstore, hdial]⟩
    rcases hrpc : env.rpc i info peer keys with e | resp
    · exact ⟨[.attempt info peer], by simp [sendSplitIter, hsel, hstore, hdial, hrpc]⟩
    rcases hre : resp.regionError with _ | re
    · exact ⟨[.attempt info peer], by simp [sendSplitIter, hsel, hstore, hdial, hrpc, hre]⟩
    rcases hnl : re.notLeader with _ | nl
    · by_cases hbs : re.serverIsBusy || re.staleCommand
      · obtain ⟨t, ht⟩ := ih (i + 1) info (errs ++ [.splitFailed re]) (evs ++ [.attempt info peer])
        refine ⟨[.attempt info peer] ++ t, ?_⟩
        simp only [sendSplitIter, hsel, hstore, hdial, hrpc, hre, hnl, hbs, if_true]
        rw [ht, List.append_assoc]
      · refine ⟨[.attempt info peer], ?_⟩
        simp only [sendSplitIter, hsel, hstore, hdial, hrpc, hre, hnl, hbs, if_false]
        simp
    rcases hl : nl.leader with _ | l
    · rcases hloc : env.getRegionByID nl.regionId with e | oinfo
      · exact ⟨[.attempt info peer, .locator nl.regionId],
          by simp [sendSplitIter, hsel, hstore, hdial, hrpc, hre, hnl, hl, hloc]⟩
      rcases oinfo with _ | newInfo
      · exact ⟨[.attempt info peer, .locator nl.regionId],
          by simp [sendSplitIter, hsel, hstore, hdial, hrpc, hre, hnl, hl, hloc]⟩
      by_cases hep : checkRegionEpoch newInfo info
      · obtain ⟨t, ht⟩ := ih (i + 1) newInfo (errs ++ [.splitFailed re])
          (evs ++ [.attempt info peer, .locator nl.regionId])
        refine ⟨[.attempt info peer, .locator nl.regionId] ++ t, ?_⟩
        simp only [sendSplitIter, hsel, hstore, hdial, hrpc, hre, hnl, hl, hloc, hep, if_true]
        rw [ht, List.append_assoc]
      · refine ⟨[.attempt info peer, .locator nl.regionId], ?_⟩
        simp only [sendSplitIter, hsel, hstore, hdial, hrpc, hre, hnl, hl, hloc]
        simp [hep]
    · obtain ⟨t, ht⟩ := ih (i + 1) { info with leader := some l }
        (errs ++ [.splitFailed re]) (evs ++ [.attempt info peer])
      refine ⟨[.attempt info peer] ++ t, ?_⟩
      simp only [sendSplitIter, hsel, hstore, hdial, hrpc, hre, hnl, hl]
      rw [ht, List.append_assoc]

theorem sendSplitIter_attempt_prefix (env : SplitEnv) (keys : List Key)
    (fuel i : Nat) (info : RegionInfo) (errs : List SplitErr) (evs : List Event)
    (peer : Peer) (store : Store)
    (hsel : splitPeer info = some peer)
    (hstore : env.getStore peer.storeId = .ok store)
    (hdial : env.dial store.address = .ok ()) :
    ∃ tail, (sendSplitIter env keys (fuel + 1) i info errs evs).2 =
      evs ++ [Event.attempt info peer] ++ tail := by
  rcases hrpc : env.rpc i info peer keys with e | resp
  · exact ⟨[], by simp [sendSplitIter, hsel, hstore, hdial, hrpc]⟩
  rcases hre : resp.regionError with _ | re
  · exact ⟨[], by simp [sendSplitIter, hsel, hstore, hdial, hrpc, hre]⟩
  rcases hnl : re.notLeader with _ | nl
  · by_cases hbs : re.serverIsBusy || re.staleCommand
    · obtain ⟨t, ht⟩ := sendSplitIter_events_mono env keys fuel (i + 1) info
        (errs ++ [.splitFailed re]) (evs ++ [.attempt info peer])
      refine ⟨t, ?_⟩
      simp only [sendSplitIter, hsel, hstore, hdial, hrpc, hre, hnl, hbs, if_true]
      rw [ht]
    · refine ⟨[], ?_⟩
      simp only [sendSplitIter, hsel, hstore, hdial, hrpc, hre, hnl]
      simp [hbs]
  rcases hl : nl.leader with _ | l
  · rcases hloc : env.getRegionByID nl.regionId with e | oinfo
    · exact ⟨[.locator nl.regionId],
        by simp [sendSplitIter, hsel, hstore, hdial, hrpc, hre, hnl, hl, hloc]⟩
    rcases oinfo with _ | newInfo
    · exact ⟨[.locator nl.regionId],
        by simp [sendSplitIter, hsel, hstore, hdial, hrpc, hre, hnl, hl, hloc]⟩
    by_cases hep : checkRegionEpoch newInfo info
    · obtain ⟨t, ht⟩ := sendSplitIter_events_mono env keys fuel (i + 1) newInfo
        (errs ++ [.splitFailed re]) (evs ++ [.attempt info peer, .locator nl.regionId])
      refine ⟨[.locator nl.regionId] ++ t, ?_⟩
      simp only [sendSplitIter, hsel, hstore, hdial, hrpc, hre, hnl, hl, hloc, hep, if_true]
      rw [ht]
      simp
    · refine ⟨[.locator nl.regionId], ?_⟩
      simp only [sendSplitIter, hsel, hstore, hdial, hrpc, hre, hnl, hl, hloc]
      simp [hep]
  · obtain ⟨t, ht⟩ := sendSplitIter_events_mono env keys fuel (i + 1)
      { info with leader := some l } (errs ++ [.splitFailed re]) (evs ++ [.attempt info peer])
    refine ⟨t, ?_⟩
    simp only [sendSplitIter, hsel, hstore, hdial, hrpc, hre, hnl, hl]
    rw [ht]

theorem countAttempts_append (evs evs' : List Event) :
    countAttempts (evs ++ evs') = countAttempts evs + countAttempts evs' := by
  simp [countAttempts, List.countP_append]

theorem retry_all_loop (env : SplitEnv) (keys : List Key) (reF : Nat → RegionError)
    (hstore : ∀ id, ∃ s, env.getStore id = Except.ok s)
    (hdial : ∀ a, env.dial a = Except.ok ())
    (hrpc : ∀ j info' peer', ∃ resp, env.rpc j info' peer' keys = Except.ok resp ∧
      resp.regionError = some (reF j))
    (hretry : ∀ j, alwaysRetryable (reF j) = true) :
    ∀ fuel i info errs evs, (splitPeer info).isSome →
      (sendSplitIter env keys fuel i info errs evs).1 =
        Except.error (errs ++ (List.range fuel).map (fun k => SplitErr.splitFailed (reF (i + k)))) ∧
      countAttempts (sendSplitIter env keys fuel i info errs evs).2 =
        countAttempts evs + fuel := by
  intro fuel
  induction fuel with
  | zero =>
    intro i info errs evs _
    simp [sendSplitIter]
  | succ n ih =>
    intro i info errs evs hsel
    rcases hselpeer : splitPeer info with _ | peer
    · rw [hselpeer] at hsel; simp at hsel
    obtain ⟨store, hst⟩ := hstore peer.storeId
    obtain ⟨resp, hr, hregerr⟩ := hrpc i info peer
    have hret := hretry i
    have harith : ∀ k : Nat, i + 1 + k = i + (k + 1) := fun k => by omega
    rcases hnl : (reF i).notLeader with _ | nl
    · have hbs : (reF i).serverIsBusy = true ∨ (reF i).staleCommand = true := by
        simp [alwaysRetryable, hnl] at hret
        exact hret
      rw [step_busy env keys n i info errs evs peer store resp (reF i)
        hselpeer hst (hdial store.address) hr hregerr hnl hbs]
      obtain ⟨h1, h2⟩ := ih (i + 1) info (errs ++ [.splitFailed (reF i)])
        (evs ++ [.attempt info peer]) (by rw [hselpeer]; simp)
      refine ⟨?_, ?_⟩
      · rw [h1]
        congr 1
        rw [List.append_assoc]
        congr 1
        simp [List.range_succ_eq_map, List.map_map, Function.comp, harith]
      · rw [h2, countAttempts_append]
        simp [countAttempts]
        omega
    · rcases hl : nl.leader with _ | l
      · exfalso
        simp [alwaysRetryable, hnl, hl] at hret
      have hlid : ¬l.id = 0 := by
        simpa [alwaysRetryable, hnl, hl] using hret
      rw [step_hint env keys n i info errs evs peer store resp (reF i) nl l
        hselpeer hst (hdial store.address) hr hregerr hnl hl]
      obtain ⟨h1, h2⟩ := ih (i + 1) { info with leader := some l }
        (errs ++ [.splitFailed (reF i)]) (evs ++ [.attempt info peer])
        (by simp [splitPeer, hlid])
      refine ⟨?_, ?_⟩
      · rw [h1]
        congr 1
        rw [List.append_assoc]
        congr 1
        simp [List.range_succ_eq_map, List.map_map, Function.comp, harith]
      · rw [h2, countAttempts_append]
        simp [countAttempts]
        omega

theorem partitionRegionsGo_no_match (info : RegionInfo) :
    ∀ (L : List Region) (origin : Option RegionInfo) (acc : List RegionInfo),
      (∀ x ∈ L, x.id ≠ info.region.id) →
      partitionRegionsGo info origin acc L =
        (origin, acc ++ L.map (fun x => ⟨x, regionLeader info x⟩)) := by
  intro L
  induction L with
  | nil =>
    intro origin acc _
    simp [partitionRegionsGo]
  | cons r rest ih =>
    intro origin acc h
    have hr : r.id ≠ info.region.id := h r (by simp)
    simp only [partitionRegionsGo, if_neg hr]
    rw [ih origin (acc ++ [RegionInfo.mk r (regionLeader info r)]) (fun x hx => h x (by simp [hx]))]
    simp

theorem partitionRegionsGo_pass (info : RegionInfo) (r : Region) (post : List Region)
    (hr : r.id = info.region.id)
    (hpost : ∀ x ∈ post, x.id ≠ info.region.id) :
    ∀ (pre : List Region) (origin : Option RegionInfo) (acc : List RegionInfo),
      (∀ x ∈ pre, x.id ≠ info.region.id) →
      partitionRegionsGo info origin acc (pre ++ r :: post) =
        (some ⟨r, regionLeader info r⟩,
         acc ++ (pre ++ post).map (fun x => ⟨x, regionLeader info x⟩)) := by
  intro pre
  induction pre with
  | nil =>
    intro origin acc _
    simp only [List.nil_append, partitionRegionsGo, if_pos hr]
    rw [partitionRegionsGo_no_match info post _ _ hpost]
  | cons p ps ih =>
    intro origin acc hpre
    have hp : p.id ≠ info.region.id := hpre p (by simp)
    simp only [List.cons_append, partitionRegionsGo, if_neg hp, List.append_eq]
    rw [ih origin (acc ++ [RegionInfo.mk p (regionLeader info p)]) (fun x hx => hpre x (by simp [hx]))]
    simp

theorem partitionRegionsGo_leader (info : RegionInfo) :
    ∀ (L : List Region) (origin : Option RegionInfo) (acc : List RegionInfo),
      (∀ ri ∈ acc, ri.leader = regionLeader info ri.region) →
      (∀ ri, origin = some ri → ri.leader = regionLeader info ri.region) →
      (∀ ri ∈ (partitionRegionsGo info origin acc L).2,
        ri.leader = regionLeader info ri.region) ∧
      (∀ ri, (partitionRegionsGo info origin acc L).1 = some ri →
        ri.leader = regionLeader info ri.region) := by
  intro L
  induction L with
  | nil =>
    intro origin acc hacc horig
    simpa [partitionRegionsGo] using ⟨hacc, horig⟩
  | cons r rest ih =>
    intro origin acc hacc horig
    by_cases hid : r.id = info.region.id
    · simp only [partitionRegionsGo, if_pos hid]
      exact ih (some ⟨r, regionLeader info r⟩) acc hacc
        (fun ri hri => by cases hri; rfl)
    · simp only [partitionRegionsGo, if_neg hid]
      refine ih origin (acc ++ [⟨r, regionLeader info r⟩]) ?_ horig
      intro ri hri
      rcases List.mem_append.mp hri with h | h
      · exact hacc ri h
      · simp at h
        subst h
        rfl

theorem splitRegion_leader_helper (info : RegionInfo) (envS : SingleEnv) (key : Key)
    (ri : RegionInfo) (h : SplitRegion envS info key = Except.ok ri) :
    ri.leader = regionLeader info ri.region := by
  unfold SplitRegion at h
  iterate 6 all_goals try split at h
  all_goals cases h
  rfl

theorem batch_outputs_leader_helper (env : SplitEnv) (info : RegionInfo) (keys : List Key)
    (origin : Option RegionInfo) (news : List RegionInfo) (evs : List Event)
    (h : BatchSplitRegionsWithOrigin env info keys = (Except.ok (origin, news), evs)) :
    (∀ ri ∈ news, ri.leader = regionLeader info ri.region) ∧
    (∀ ri, origin = some ri → ri.leader = regionLeader info ri.region) := by
  unfold BatchSplitRegionsWithOrigin at h
  split at h
  · simp [Prod.mk.injEq] at h
  · rename_i resp evs' heq
    simp only [Prod.mk.injEq, Except.ok.injEq] at h
    obtain ⟨hpair, hevs⟩ := h
    have h1 : (partitionRegionsGo info none [] resp.regions).1 = origin := by rw [hpair]
    have h2 : (partitionRegionsGo info none [] resp.regions).2 = news := by rw [hpair]
    constructor
    · intro ri hri
      exact (partitionRegionsGo_leader info resp.regions none [] (by simp) (by simp)).1
        ri (by rw [h2]; exact hri)
    · intro ri hri
      exact (partitionRegionsGo_leader info resp.regions none [] (by simp) (by simp)).2
        ri (by rw [h1]; exact hri)

theorem cacheLookup_preserved (f : Nat → Except TErr Store) (st : PDClientState)
    (id j : Nat) (s : Store) (h : cacheLookup st.storeCache id = some s) :
    cacheLookup ((pdGetStore f st j).2.1).storeCache id = some s := by
  unfold pdGetStore
  rcases hj : cacheLookup st.storeCache j with _ | s'
  · rcases hf : f j with e | s2
    · simpa using h
    · have hne : ¬j = id := by
        intro he
        rw [he, h] at hj
        cases hj
      simpa [cacheLookup, hne] using h
  · simpa using h

theorem runGetStores_preserved (id : Nat) (s : Store) :
    ∀ (ops : List ((Nat → Except TErr Store) × Nat)) (st : PDClientState),
      cacheLookup st.storeCache id = some s →
      cacheLookup (runGetStores ops st).storeCache id = some s := by
  intro ops
  induction ops with
  | nil =>
    intro st h
    simpa [runGetStores] using h
  | cons op rest ih =>
    intro st h
    have hstep := cacheLookup_preserved op.1 st id op.2 s h
    simpa [runGetStores] using ih _ hstep

/-- Claim C1: when every RPC attempt yields an unconditionally-retryable
region error, the executor makes exactly 4 attempts (never a 5th) and the
returned error accumulates the failures of all 4 attempts. -/
theorem retry_budget_exhausted (env : SplitEnv) (keys : List Key) (info : RegionInfo)
    (reF : Nat → RegionError)
    (hsel : (splitPeer info).isSome)
    (hstore : ∀ id, ∃ s, env.getStore id = Except.ok s)
    (hdial : ∀ a, env.dial a = Except.ok ())
    (hrpc : ∀ j info' peer', ∃ resp, env.rpc j info' peer' keys = Except.ok resp ∧
      resp.regionError = some (reF j))
    (hretry : ∀ j, alwaysRetryable (reF j) = true) :
    (sendSplitRegionRequest env info keys).1 =
      Except.error [SplitErr.splitFailed (reF 0), SplitErr.splitFailed (reF 1),
        SplitErr.splitFailed (reF 2), SplitErr.splitFailed (reF 3)] ∧
    countAttempts (sendSplitRegionRequest env info keys).2 = 4 := by
  obtain ⟨h1, h2⟩ := retry_all_loop env keys reF hstore hdial hrpc hretry
    splitRegionMaxRetryTime 0 info [] [] hsel
  constructor
  · rw [sendSplitRegionRequest, h1]
    simp [splitRegionMaxRetryTime, List.range_succ]
  · rw [sendSplitRegionRequest, h2]
    simp [countAttempts, splitRegionMaxRetryTime]

/-- Witness for C1: a stub that always answers server-busy. -/
theorem retry_budget_exhausted_witness :
    (sendSplitRegionRequest envC1 infoC1 [[3]]).1 =
      Except.error [SplitErr.splitFailed busyError, SplitErr.splitFailed busyError,
        SplitErr.splitFailed busyError, SplitErr.splitFailed busyError] ∧
    countAttempts (sendSplitRegionRequest envC1 infoC1 [[3]]).2 = 4 :=
  retry_budget_exhausted envC1 [[3]] infoC1 (fun _ => busyError)
    rfl
    (fun id => ⟨⟨id, "store"⟩, rfl⟩)
    (fun _ => rfl)
    (fun _ _ _ => ⟨⟨some busyError, none, []⟩, rfl, rfl⟩)
    (fun _ => rfl)

/-- Claim C5: a response carrying a structured region error that is neither
not-leader, server-busy nor stale-command makes the executor return
immediately, with the error set accumulated so far plus this failure, and
no further attempt. -/
theorem nonretryable_immediate (env : SplitEnv) (keys : List Key) (n i : Nat)
    (info : RegionInfo) (errs : List SplitErr) (evs : List Event) (peer : Peer)
    (store : Store) (resp : SplitRegionResponse) (re : RegionError)
    (hsel : splitPeer info = some peer)
    (hstore : env.getStore peer.storeId = Except.ok store)
    (hdial : env.dial store.address = Except.ok ())
    (hrpc : env.rpc i info peer keys = Except.ok resp)
    (hre : resp.regionError = some re)
    (hnl : re.notLeader = none)
    (hbusy : re.serverIsBusy = false)
    (hstale : re.staleCommand = false) :
    sendSplitIter env keys (n + 1) i info errs evs =
      (Except.error (errs ++ [SplitErr.splitFailed re]), evs ++ [Event.attempt info peer]) :=
  step_other env keys n i info errs evs peer store resp re
    hsel hstore hdial hrpc hre hnl hbusy hstale

/-- Witness for C5: a single region-not-found response fails with exactly
one recorded attempt. -/
theorem nonretryable_immediate_witness :
    sendSplitIter envC5 [[3]] 4 0 infoC5 [] [] =
      (Except.error [SplitErr.splitFailed notFoundError],
       [Event.attempt infoC5 ⟨5, 50⟩]) :=
  nonretryable_immediate envC5 [[3]] 3 0 infoC5 [] [] ⟨5, 50⟩ ⟨50, "store"⟩
    ⟨some notFoundError, none, []⟩ notFoundError rfl rfl rfl rfl rfl rfl rfl rfl

/-- Claim C6: a server-busy or stale-command response makes the executor
retry the next attempt with the working region info unchanged. -/
theorem transient_retry_unchanged (env : SplitEnv) (keys : List Key) (n i : Nat)
    (info : RegionInfo) (errs : List SplitErr) (evs : List Event) (peer : Peer)
    (store : Store) (resp : SplitRegionResponse) (re : RegionError)
    (hsel : splitPeer info = some peer)
    (hstore : env.getStore peer.storeId = Except.ok store)
    (hdial : env.dial store.address = Except.ok ())
    (hrpc : env.rpc i info peer keys = Except.ok resp)
    (hre : resp.regionError = some re)
    (hnl : re.notLeader = none)
    (hbs : re.serverIsBusy = true ∨ re.staleCommand = true) :
    sendSplitIter env keys (n + 1) i info errs evs =
      sendSplitIter env keys n (i + 1) info (errs ++ [SplitErr.splitFailed re])
        (evs ++ [Event.attempt info peer]) :=
  step_busy env keys n i info errs evs peer store resp re
    hsel hstore hdial hrpc hre hnl hbs

/-- Witness for C6: a stale-command response retries with the same
region info. -/
theorem transient_retry_unchanged_witness :
    sendSplitIter envC6 [[3]] 4 0 infoC6 [] [] =
      sendSplitIter envC6 [[3]] 3 1 infoC6 [SplitErr.splitFailed staleError]
        [Event.attempt infoC6 ⟨2, 20⟩] :=
  transient_retry_unchanged envC6 [[3]] 3 0 infoC6 [] [] ⟨2, 20⟩ ⟨20, "store"⟩
    ⟨some staleError, none, []⟩ staleError rfl rfl rfl rfl rfl rfl (Or.inr rfl)

/-- Claim C4: on a not-leader response with no embedded leader the executor
re-resolves the region by identifier via the locator; when the re-resolved
epoch dominates-or-equals the working region's it replaces the working
region info and retries, otherwise it fails immediately with an
epoch-mismatch error appended to the accumulated errors. -/
theorem leader_repair_no_hint (env : SplitEnv) (keys : List Key) (n i : Nat)
    (info newInfo : RegionInfo) (errs : List SplitErr) (evs : List Event)
    (peer : Peer) (store : Store) (resp : SplitRegionResponse) (re : RegionError)
    (nl : NotLeader)
    (hsel : splitPeer info = some peer)
    (hstore : env.getStore peer.storeId = Except.ok store)
    (hdial : env.dial store.address = Except.ok ())
    (hrpc : env.rpc i info peer keys = Except.ok resp)
    (hre : resp.regionError = some re)
    (hnl : re.notLeader = some nl)
    (hl : nl.leader = none)
    (hloc : env.getRegionByID nl.regionId = Except.ok (some newInfo)) :
    (checkRegionEpoch newInfo info = true →
      sendSplitIter env keys (n + 1) i info errs evs =
        sendSplitIter env keys n (i + 1) newInfo (errs ++ [SplitErr.splitFailed re])
          (evs ++ [Event.attempt info peer, Event.locator nl.regionId])) ∧
    (checkRegionEpoch newInfo info = false →
      sendSplitIter env keys (n + 1) i info errs evs =
        (Except.error (errs ++ [SplitErr.splitFailed re, SplitErr.epochNotMatch]),
         evs ++ [Event.attempt info peer, Event.locator nl.regionId])) :=
  ⟨fun hep => step_nohint_dominates env keys n i info newInfo errs evs peer store resp re nl
      hsel hstore hdial hrpc hre hnl hl hloc hep,
   fun hep => step_nohint_stale env keys n i info newInfo errs evs peer store resp re nl
      hsel hstore hdial hrpc hre hnl hl hloc hep⟩

/-- Witness for C4: the locator returns a region with a dominating epoch
and the executor retries with the fresh lookup. -/
theorem leader_repair_no_hint_witness :
    sendSplitIter envC4 [[3]] 4 0 infoC4 [] [] =
      sendSplitIter envC4 [[3]] 3 1 newInfoC4 [SplitErr.splitFailed noHintError]
        [Event.attempt infoC4 ⟨2, 20⟩, Event.locator 1] :=
  (leader_repair_no_hint envC4 [[3]] 3 0 infoC4 newInfoC4 [] [] ⟨2, 20⟩ ⟨20, "store"⟩
    ⟨some noHintError, none, []⟩ noHintError ⟨1, none⟩
    rfl rfl rfl rfl rfl rfl rfl rfl).1 rfl

/-- Claim C3 (amended): on a not-leader response with an embedded leader
the executor updates the working leader to the hint and retries without
querying the locator; when the hint's identifier is non-zero the next
attempt addresses the hinted leader (the trace between the two attempts
contains no locator query). -/
theorem leader_hint_amended (env : SplitEnv) (keys : List Key) (n i : Nat)
    (info : RegionInfo) (errs : List SplitErr) (evs : List Event) (peer : Peer)
    (resp : SplitRegionResponse) (re : RegionError) (nl : NotLeader) (l : Peer)
    (hsel : splitPeer info = some peer)
    (hstore : ∀ id, ∃ s, env.getStore id = Except.ok s)
    (hdial : ∀ a, env.dial a = Except.ok ())
    (hrpc : env.rpc i info peer keys = Except.ok resp)
    (hre : resp.regionError = some re)
    (hnl : re.notLeader = some nl)
    (hl : nl.leader = some l)
    (hlid : l.id ≠ 0) :
    sendSplitIter env keys (n + 2) i info errs evs =
      sendSplitIter env keys (n + 1) (i + 1) { info with leader := some l }
        (errs ++ [SplitErr.splitFailed re]) (evs ++ [Event.attempt info peer]) ∧
    ∃ tail, (sendSplitIter env keys (n + 2) i info errs evs).2 =
      evs ++ [Event.attempt info peer,
              Event.attempt { info with leader := some l } l] ++ tail := by
  obtain ⟨store, hst⟩ := hstore peer.storeId
  have hstep := step_hint env keys (n + 1) i info errs evs peer store resp re nl l
    hsel hst (hdial store.address) hrpc hre hnl hl
  refine ⟨hstep, ?_⟩
  rw [hstep]
  have hsel2 : splitPeer { info with leader := some l } = some l := by
    simp [splitPeer, hlid]
  obtain ⟨store2, hst2⟩ := hstore l.storeId
  obtain ⟨t, ht⟩ := sendSplitIter_attempt_prefix env keys n (i + 1)
    { info with leader := some l } (errs ++ [SplitErr.splitFailed re])
    (evs ++ [Event.attempt info peer]) l store2 hsel2 hst2 (hdial store2.address)
  refine ⟨t, ?_⟩
  rw [ht]
  simp

/-- Counterexample to C3 as stated: the first response embeds the new
leader `⟨0, 70⟩` (identifier zero).  The executor records it and retries,
but the second attempt addresses the first peer `⟨5, 50⟩`, not the
embedded leader. -/
theorem leader_hint_zero_id_cex :
    (sendSplitRegionRequest envC3 infoC3 [[3]]).2 =
      [Event.attempt infoC3 ⟨2, 20⟩,
       Event.attempt { infoC3 with leader := some ⟨0, 70⟩ } ⟨5, 50⟩] ∧
    hintErrC3.notLeader = some ⟨1, some ⟨0, 70⟩⟩ ∧
    (⟨5, 50⟩ : Peer) ≠ ⟨0, 70⟩ := by
  refine ⟨?_, rfl, by decide⟩
  rfl

/-- Witness for the amended C3: a non-zero embedded leader is adopted and
addressed by the second attempt. -/
theorem leader_hint_amended_witness :
    sendSplitIter envC3w [[3]] 4 0 infoC3 [] [] =
      sendSplitIter envC3w [[3]] 3 1 { infoC3 with leader := some ⟨7, 70⟩ }
        [SplitErr.splitFailed ⟨some ⟨1, some ⟨7, 70⟩⟩, false, false, false, false, false⟩]
        [Event.attempt infoC3 ⟨2, 20⟩] :=
  (leader_hint_amended envC3w [[3]] 2 0 infoC3 [] [] ⟨2, 20⟩
    ⟨some ⟨some ⟨1, some ⟨7, 70⟩⟩, false, false, false, false, false⟩, none, []⟩
    ⟨some ⟨1, some ⟨7, 70⟩⟩, false, false, false, false, false⟩ ⟨1, some ⟨7, 70⟩⟩ ⟨7, 70⟩
    rfl (fun id => ⟨⟨id, "store"⟩, rfl⟩) (fun _ => rfl) rfl rfl rfl rfl
    (by decide)).1

/-- Claim C7 (amended): in the batch executor the addressed peer is the
leader when present with a non-zero identifier, otherwise the first peer,
and with no peer available the call fails with a no-peer error, no
attempt and no retry; the legacy single-key `SplitRegion` instead uses
the leader whenever present, with no zero-identifier check. -/
theorem peer_selection_amended (env : SplitEnv) (keys : List Key) (n i : Nat)
    (info : RegionInfo) (errs : List SplitErr) (evs : List Event) :
    (∀ l, info.leader = some l → l.id ≠ 0 → splitPeer info = some l) ∧
    (∀ l, info.leader = some l → l.id = 0 → splitPeer info = info.region.peers.head?) ∧
    (info.leader = none → splitPeer info = info.region.peers.head?) ∧
    (splitPeer info = none →
      sendSplitIter env keys (n + 1) i info errs evs =
        (Except.error (errs ++ [SplitErr.noPeer info.region.id]), evs)) ∧
    (∀ l, info.leader = some l → splitRegionPeer info = some l) := by
  refine ⟨?_, ?_, ?_, ?_, ?_⟩
  · intro l hl hid
    simp [splitPeer, hl, hid]
  · intro l hl hid
    simp [splitPeer, hl, hid]
  · intro hl
    simp [splitPeer, hl]
  · intro hsel
    exact step_nopeer env keys n i info errs evs hsel
  · intro l hl
    simp [splitRegionPeer, hl]

/-- Counterexample to C7 as stated: `envC7` echoes the addressed peer's
store into the returned region's identifier.  With a zero-identifier
leader present, the legacy `SplitRegion` addresses that leader (store 70)
rather than the first peer (store 50). -/
theorem split_peer_zero_leader_cex :
    splitRegionPeer infoC7 = some ⟨0, 70⟩ ∧
    (⟨0, 70⟩ : Peer).id = 0 ∧
    infoC7.region.peers.head? = some ⟨5, 50⟩ ∧
    SplitRegion envC7 infoC7 [3] = Except.ok ⟨⟨70, [], [], 1, 1, []⟩, none⟩ ∧
    (70 : Nat) ≠ 50 := by
  refine ⟨rfl, rfl, rfl, ?_, by decide⟩
  rfl

/-- Witness for the amended C7: a region with no leader and no peers fails
with the no-peer error and no attempt. -/
theorem peer_selection_amended_witness :
    sendSplitIter envC7w [[3]] 4 0 infoC7w [] [] =
      (Except.error [SplitErr.noPeer 1], []) :=
  (peer_selection_amended envC7w [[3]] 3 0 infoC7w [] []).2.2.2.1 rfl

/-- Claim C2 (amended): when a batch split succeeds and the response's flat
region list contains exactly one region whose identifier equals the
pre-split region's, `BatchSplitRegionsWithOrigin` returns that region as
the origin and all others as new regions — determined purely by
identifier equality on the flat list, with the legacy `left` field never
consulted. -/
theorem batch_origin_by_id (env : SplitEnv) (info : RegionInfo) (keys : List Key)
    (resp : SplitRegionResponse) (evs : List Event) (pre post : List Region) (r : Region)
    (hrun : sendSplitRegionRequest env info keys = (Except.ok resp, evs))
    (hsplit : resp.regions = pre ++ r :: post)
    (hr : r.id = info.region.id)
    (hpre : ∀ x ∈ pre, x.id ≠ info.region.id)
    (hpost : ∀ x ∈ post, x.id ≠ info.region.id) :
    BatchSplitRegionsWithOrigin env info keys =
      (Except.ok (some ⟨r, regionLeader info r⟩,
        (pre ++ post).map (fun x => ⟨x, regionLeader info x⟩)), evs) := by
  simp only [BatchSplitRegionsWithOrigin, hrun]
  rw [hsplit, partitionRegionsGo_pass info r post hr hpost pre none [] hpre]
  simp

/-- Counterexample to C2 as stated: the legacy `SplitRegion` trusts the
deprecated `left` field.  The response's flat list contains a region whose
identifier equals the pre-split region's, yet the returned region is the
`left` one with an unrelated identifier. -/
theorem split_region_left_field_cex :
    SplitRegion envC2cex infoC2 [3] = Except.ok ⟨leftC2, none⟩ ∧
    leftC2.id ≠ infoC2.region.id ∧
    matchC2.id = infoC2.region.id := by
  refine ⟨?_, by decide, rfl⟩
  rfl

/-- Witness for the amended C2: a flat-list-only response (`left` absent);
the region with the pre-split identifier becomes the origin. -/
theorem batch_origin_by_id_witness :
    BatchSplitRegionsWithOrigin envW2 infoW2 [[5]] =
      (Except.ok (some ⟨originW2, none⟩, [⟨newW2, none⟩]),
       [Event.attempt infoW2 ⟨5, 50⟩]) :=
  batch_origin_by_id envW2 infoW2 [[5]] respW2 [Event.attempt infoW2 ⟨5, 50⟩]
    [newW2] [] originW2 rfl rfl rfl (by decide) (by decide)

/-- Claim C8: the leader recorded for each region produced by a split is
the first of its peers on the pre-split leader's store when one exists,
and nil when there is no pre-split leader or no peer on that store; every
region info emitted by the batch partitioning carries exactly this
recomputed leader. -/
theorem split_leader_recompute (info : RegionInfo) (region : Region) (rs : List Region) :
    (info.leader = none → regionLeader info region = none) ∧
    (∀ ldr, info.leader = some ldr →
      (∀ p ∈ region.peers, p.storeId ≠ ldr.storeId) →
      regionLeader info region = none) ∧
    (∀ ldr p, info.leader = some ldr → p ∈ region.peers → p.storeId = ldr.storeId →
      ∃ q, q ∈ region.peers ∧ q.storeId = ldr.storeId ∧
        regionLeader info region = some q) ∧
    (∀ ri, ri ∈ (partitionRegionsGo info none [] rs).2 →
      ri.leader = regionLeader info ri.region) ∧
    (∀ ri, (partitionRegionsGo info none [] rs).1 = some ri →
      ri.leader = regionLeader info ri.region) ∧
    (∀ (envS : SingleEnv) (key : Key) (ri : RegionInfo),
      SplitRegion envS info key = Except.ok ri →
      ri.leader = regionLeader info ri.region) ∧
    (∀ (env : SplitEnv) (keys : List Key) (origin : Option RegionInfo)
      (news : List RegionInfo) (evs : List Event),
      BatchSplitRegionsWithOrigin env info keys = (Except.ok (origin, news), evs) →
      (∀ ri ∈ news, ri.leader = regionLeader info ri.region) ∧
      (∀ ri, origin = some ri → ri.leader = regionLeader info ri.region)) := by
  refine ⟨?_, ?_, ?_, ?_, ?_, ?_, ?_⟩
  · intro h
    simp [regionLeader, h]
  · intro ldr h hnone
    simp only [regionLeader, h]
    rw [List.find?_eq_none]
    intro p hp
    simpa using hnone p hp
  · intro ldr p h hp hst
    simp only [regionLeader, h]
    have hsome : (region.peers.find? (fun q => q.storeId == ldr.storeId)).isSome := by
      rw [List.find?_isSome]
      exact ⟨p, hp, by simpa using hst⟩
    obtain ⟨q, hq⟩ := Option.isSome_iff_exists.mp hsome
    refine ⟨q, List.mem_of_find?_eq_some hq, ?_, hq⟩
    simpa using List.find?_some hq
  · intro ri hri
    exact (partitionRegionsGo_leader info rs none [] (by simp) (by simp)).1 ri hri
  · intro ri hri
    exact (partitionRegionsGo_leader info rs none [] (by simp) (by simp)).2 ri hri
  · intro envS key ri h
    exact splitRegion_leader_helper info envS key ri h
  · intro env' keys' origin news evs h
    exact batch_outputs_leader_helper env' info keys' origin news evs h

/-- Witness for C8: the new region's peer on the pre-split leader's store
is recorded as its leader. -/
theorem split_leader_recompute_witness :
    ∃ q, q ∈ regionW8.peers ∧ q.storeId = (⟨5, 50⟩ : Peer).storeId ∧
      regionLeader infoW8 regionW8 = some q :=
  (split_leader_recompute infoW8 regionW8 []).2.2.1 ⟨5, 50⟩ ⟨7, 50⟩
    rfl (by decide) rfl

/-- Claim C9: once `GetStore` succeeds for an identifier, any later
`GetStore` call for the same identifier — immediately or after any
sequence of further `GetStore` calls — returns the identical store with
zero underlying fetches and leaves the cache unchanged, regardless of
what the underlying pd client would now answer. -/
theorem store_cache_idempotent (fetch : Nat → Except TErr Store) (st st2 : PDClientState)
    (id k : Nat) (s : Store)
    (h : pdGetStore fetch st id = (Except.ok s, st2, k)) :
    (∀ fetch2, pdGetStore fetch2 st2 id = (Except.ok s, st2, 0)) ∧
    (∀ ops fetch2, pdGetStore fetch2 (runGetStores ops st2) id =
      (Except.ok s, runGetStores ops st2, 0)) := by
  have hlk : cacheLookup st2.storeCache id = some s := by
    unfold pdGetStore at h
    rcases hc : cacheLookup st.storeCache id with _ | s'
    · rw [hc] at h
      rcases hf : fetch id with e | s2
      · rw [hf] at h
        cases h
      · rw [hf] at h
        simp only [Prod.mk.injEq, Except.ok.injEq] at h
        obtain ⟨hs, hst2, hk⟩ := h
        rw [← hst2]
        simp [cacheLookup, hs]
    · rw [hc] at h
      simp only [Prod.mk.injEq, Except.ok.injEq] at h
      obtain ⟨hs, hst2, hk⟩ := h
      rw [← hst2, ← hs]
      exact hc
  refine ⟨?_, ?_⟩
  · intro fetch2
    unfold pdGetStore
    rw [hlk]
  · intro ops fetch2
    unfold pdGetStore
    rw [runGetStores_preserved id s ops st2 hlk]

/-- Witness for C9: after one successful fetch of store 7, a second call
answers from the cache even against a now-failing underlying client. -/
theorem store_cache_idempotent_witness :
    pdGetStore (fun _ => .error 3) ⟨[(7, ⟨7, "addr"⟩)]⟩ 7 =
      (Except.ok ⟨7, "addr"⟩, ⟨[(7, ⟨7, "addr"⟩)]⟩, 0) :=
  (store_cache_idempotent fetchW9 ⟨[]⟩ ⟨[(7, ⟨7, "addr"⟩)]⟩ 7 1 ⟨7, "addr"⟩ rfl).1
    (fun _ => .error 3)

/-- Claim C10: `BatchSplitRegions` returns exactly the new-regions
component and the same error as `BatchSplitRegionsWithOrigin` on the same
inputs, discarding only the origin region. -/
theorem batch_split_refines_with_origin (env : SplitEnv) (info : RegionInfo)
    (keys : List Key) :
    BatchSplitRegions env info keys =
      ((BatchSplitRegionsWithOrigin env info keys).1.map (fun p => p.2),
       (BatchSplitRegionsWithOrigin env info keys).2) := by
  rcases h : BatchSplitRegionsWithOrigin env info keys with ⟨res, evs⟩
  simp [BatchSplitRegions, h]
